import Mathlib

/-!
Shallow embedding of `housekeeping.js` from the gitlab-housekeep repository.

Two parts of the program carry the claims:

* `deleteProjectArtifacts` (src/housekeeping.js lines 56-130): lists all jobs of
  a project, decides per job whether its artifacts are expired, and issues (or,
  in dry-run mode, only reports) a delete call per expired job, isolating
  per-job delete failures.

* `main`'s non-targeted reconciliation (src/housekeeping.js lines 164-299):
  loads the persisted summary collection, enriches every project with
  statistics (skipping projects that already have a clean entry unless
  `forceUpdate`), then regenerates a `SummaryEntry` per record and upserts it
  into the collection keyed by project identifier.

Timestamps are modelled as integers (milliseconds since the epoch), matching
the JavaScript `Date` comparisons; calendar arithmetic via `setDate` is
modelled as adding or subtracting a whole number of days.  Remote responses
are modelled as environment functions (`jobsOf`, `deleteOk`, `fetchStats`);
`none` models a failed request.
-/

namespace Housekeep

/-- Milliseconds in one day, the unit behind `setDate` arithmetic on JS dates. -/
def msPerDay : Int := 86400000

/-- Seven days in milliseconds: the offset used both for `sevenDaysAgo`
(line 82-83) and for the assumed expiry fallback (line 92). -/
def sevenDays : Int := 7 * msPerDay

/-- A CI job as returned by `GET /projects/:id/jobs`: an identifier, an
optional explicit artifact expiry timestamp and an optional creation
timestamp (both modelled as epoch milliseconds). -/
structure Job where
  id : Nat
  artifacts_expire_at : Option Int
  created_at : Option Int
  deriving DecidableEq, Repr

/-- The `expireAtDate` computed in the loop body of `deleteProjectArtifacts`
(lines 86-97): the explicit `artifacts_expire_at` when present, else
`created_at + 7 days` when `created_at` is present, else no date (the job is
skipped via `continue`). -/
def expireAtDate (j : Job) : Option Int :=
  match j.artifacts_expire_at with
  | some t => some t
  | none =>
    match j.created_at with
    | some c => some (c + sevenDays)
    | none => none

/-- The expiration decision of line 99: `expireAtDate < sevenDaysAgo`, where
`sevenDaysAgo = now - 7 days`; a job with no `expireAtDate` is never expired
(it was skipped before the comparison). -/
def isExpired (j : Job) (now : Int) : Bool :=
  match expireAtDate j with
  | some e => decide (e < now - sevenDays)
  | none => false

/-- One `DELETE /projects/:projectId/jobs/:jobId/artifacts` request (issued at
line 104), or the dry-run report of the same intended deletion (line 114). -/
structure DeleteCall where
  projectId : Nat
  jobId : Nat
  deriving DecidableEq, Repr

/-- The remote API as `deleteProjectArtifacts` sees it: `jobsOf p` is the full
paginated job list of project `p` (`none` when the listing request throws),
and `deleteOk p j` tells whether the artifact delete request for job `j` of
project `p` succeeds. -/
structure ApiEnv where
  jobsOf : Nat → Option (List Job)
  deleteOk : Nat → Nat → Bool

/-- Accumulated effects of the per-job loop (lines 85-119): the delete calls
issued (live mode, line 104, issued whether or not they succeed), the dry-run
reports (line 114), and the per-job delete errors that were caught and logged
(lines 106-112). -/
structure LoopOut where
  calls : List DeleteCall
  reports : List DeleteCall
  errors : List DeleteCall
  deriving DecidableEq, Repr

/-- The per-job loop of `deleteProjectArtifacts` (lines 85-119), processed
left to right.  A job with no usable date is skipped; a non-expired job
produces nothing; an expired job produces a dry-run report or a delete call,
and when the delete call fails the error is recorded and the loop continues
with the next job. -/
def processJobs (env : ApiEnv) (pid : Nat) (dryRun : Bool) (now : Int) :
    List Job → LoopOut
  | [] => ⟨[], [], []⟩
  | j :: rest =>
    let out := processJobs env pid dryRun now rest
    if isExpired j now then
      if dryRun then
        ⟨out.calls, ⟨pid, j.id⟩ :: out.reports, out.errors⟩
      else
        if env.deleteOk pid j.id then
          ⟨⟨pid, j.id⟩ :: out.calls, out.reports, out.errors⟩
        else
          ⟨⟨pid, j.id⟩ :: out.calls, out.reports, ⟨pid, j.id⟩ :: out.errors⟩
    else
      out

/-- Result of one `deleteProjectArtifacts` run: the returned boolean and the
effects of the job loop. -/
structure DelRun where
  success : Bool
  calls : List DeleteCall
  reports : List DeleteCall
  errors : List DeleteCall
  deriving DecidableEq, Repr

/-- `deleteProjectArtifacts(projectId, debug, dryRun)` (lines 56-130): fetch
all jobs (a listing failure lands in the outer catch and returns `false`
before any job is processed), run the per-job loop, and return `true`.
Per-job delete failures are caught inside the loop and never reach the outer
catch. -/
def deleteProjectArtifacts (env : ApiEnv) (pid : Nat) (dryRun : Bool) (now : Int) :
    DelRun :=
  match env.jobsOf pid with
  | none => ⟨false, [], [], []⟩
  | some jobs =>
    let out := processJobs env pid dryRun now jobs
    ⟨true, out.calls, out.reports, out.errors⟩

/-- The statistics mapping of a project response; only `job_artifacts_size`
is ever read by the program (`none` models an object without that key, such
as the `{}` synthesized on a fetch failure at line 234). -/
structure Statistics where
  job_artifacts_size : Option Nat
  deriving DecidableEq, Repr

/-- A basic project from the paginated `GET /projects` listing
(`simple=true`, no statistics): identifier and name. -/
structure Project where
  id : Nat
  name : String
  deriving DecidableEq, Repr

/-- A persisted summary entry (built at lines 258-266).  `projectId` and
`projectName` are optional because the record they are copied from may lack
`id`/`name` (JavaScript then stores `undefined`, which `JSON.stringify`
drops).  `buildArtifactsSizeMB` is kept in hundredths of a megabyte,
abstracting the decimal string `(bytes / 1048576).toFixed(2)`; `timestamp`
is the clock reading at entry construction. -/
structure SummaryEntry where
  projectId : Option Nat
  projectName : Option String
  buildArtifactsSizeBytes : Nat
  buildArtifactsSizeMB : Nat
  statistics : Option Statistics
  error : Option String
  timestamp : Nat
  deriving DecidableEq, Repr

/-- Hundredths of a megabyte, rounding to nearest: the model of
`(bytes / (1024 * 1024)).toFixed(2)` at line 262. -/
def toFixed2MB (bytes : Nat) : Nat :=
  (bytes * 100 + 524288) / 1048576

/-- JavaScript truthiness of a nullable string: `null`/`undefined` and the
empty string are falsy, every other string is truthy. -/
def strTruthy : Option String → Bool
  | none => false
  | some s => s ≠ ""

/-- A record of the `projectsWithStatistics` working list, restricted to the
fields the summary-generation loop reads (`project.id`, `project.name`,
`project.statistics`, `project.error`).  `id` and `name` are optional
because the skip path (line 211) pushes a `SummaryEntry`, which has neither
field. -/
structure PRecord where
  id : Option Nat
  name : Option String
  statistics : Option Statistics
  error : Option String
  deriving DecidableEq, Repr

/-- How a `SummaryEntry` pushed into `projectsWithStatistics` (line 211)
looks to the summary-generation loop: it has no `id` and no `name` field, and
its `statistics` and `error` fields are read as `project.statistics` and
`project.error`. -/
def SummaryEntry.asRecord (e : SummaryEntry) : PRecord :=
  { id := none, name := none, statistics := e.statistics, error := e.error }

/-- The remote API as the reconciliation run sees it: the full project
listing, and per project the statistics of `GET /projects/:id?statistics=true`
(`none` when that request throws). -/
structure StatsEnv where
  projects : List Project
  fetchStats : Nat → Option Statistics

/-- The error string stored at line 228 when a statistics fetch fails. -/
def fetchErrorMsg (pid : Nat) : String :=
  "Error fetching statistics for project " ++ toString pid

/-- The lookup of line 206:
`projectArtifactSummaries.find(entry => entry.projectId === project.id)`.
is the first entry whose `projectId` strictly equals the project identifier
(an entry with `projectId` `undefined` never matches a number). -/
def recFind (summaries : List SummaryEntry) (pid : Nat) : Option SummaryEntry :=
  summaries.find? (fun e => e.projectId = some pid)

/-- The fetch branch of the enrichment loop (lines 215-237): on success the
response (project with statistics, no error field) becomes the record; on
failure the basic project is kept with `statistics = {}` and the error
string.  The second component lists the statistics fetch issued. -/
def fetchRecord (env : StatsEnv) (p : Project) : PRecord × List Nat :=
  match env.fetchStats p.id with
  | some st => ({ id := some p.id, name := some p.name, statistics := some st, error := none }, [p.id])
  | none =>
      ({ id := some p.id, name := some p.name, statistics := some ⟨none⟩,
         error := some (fetchErrorMsg p.id) }, [p.id])

/-- One iteration of the enrichment loop (lines 205-238): when an existing
entry is found and `!forceUpdate && !existingEntry.error &&
existingEntry.statistics` holds, the entry itself is pushed and no fetch is
issued (lines 209-213); otherwise the project is fetched with statistics. -/
def enrichStep (env : StatsEnv) (summaries : List SummaryEntry) (forceUpdate : Bool)
    (p : Project) : PRecord × List Nat :=
  match recFind summaries p.id with
  | some e =>
    if !forceUpdate && !(strTruthy e.error) && e.statistics.isSome then
      (SummaryEntry.asRecord e, [])
    else
      fetchRecord env p
  | none => fetchRecord env p

/-- The full enrichment loop over the fetched project list, left to right:
the resulting `projectsWithStatistics` records and the project identifiers
for which a statistics fetch was issued. -/
def enrich (env : StatsEnv) (summaries : List SummaryEntry) (forceUpdate : Bool) :
    List Project → List PRecord × List Nat
  | [] => ([], [])
  | p :: rest =>
    let hd := enrichStep env summaries forceUpdate p
    let tl := enrich env summaries forceUpdate rest
    (hd.1 :: tl.1, hd.2 ++ tl.2)

/-- The error message attached at line 254 when `statistics` or its
`job_artifacts_size` is falsy. -/
def noSizeError : String :=
  "Build artifacts size not available in project statistics."

/-- Truthiness of `project.statistics && project.statistics.job_artifacts_size`
(line 251): the statistics object must be present (any object, even `{}`, is
truthy) and `job_artifacts_size` must be a truthy number, so a present size
of `0` fails the test. -/
def sizeAvailable (r : PRecord) : Bool :=
  match r.statistics with
  | some st =>
    match st.job_artifacts_size with
    | some n => n ≠ 0
    | none => false
  | none => false

/-- The `SummaryEntry` built at lines 246-266 for one record:
`projectError = project.error || null`, overridden by `noSizeError` when the
artifact size is unavailable; `projectId`/`projectName` are copied from the
record's `id`/`name` fields. -/
def mkSummaryEntry (r : PRecord) (now : Nat) : SummaryEntry :=
  let bytes :=
    if sizeAvailable r then
      match r.statistics with
      | some st => st.job_artifacts_size.getD 0
      | none => 0
    else 0
  let err :=
    if sizeAvailable r then (if strTruthy r.error then r.error else none)
    else some noSizeError
  { projectId := r.id
    projectName := r.name
    buildArtifactsSizeBytes := bytes
    buildArtifactsSizeMB := toFixed2MB bytes
    statistics := r.statistics
    error := err
    timestamp := now }

/-- The upsert of lines 268-274: find the first entry whose `projectId`
strictly equals `project.id` (the record's `id` field, `undefined` for a
record that came from the skip path) and replace it in place, else append. -/
def genStep (summaries : List SummaryEntry) (r : PRecord) (now : Nat) :
    List SummaryEntry :=
  let e := mkSummaryEntry r now
  match summaries.findIdx? (fun x => decide (x.projectId = r.id)) with
  | some i => summaries.set i e
  | none => summaries ++ [e]

/-- The summary-generation loop (lines 246-279), folding the upsert over the
records left to right; the collection is persisted after every step, so the
fold result is the finally persisted collection. -/
def generate (summaries : List SummaryEntry) (now : Nat) :
    List PRecord → List SummaryEntry
  | [] => summaries
  | r :: rest => generate (genStep summaries r now) now rest

/-- A full non-targeted reconciliation run of `main` (lines 200-279) starting
from the loaded collection `summaries0`: enrichment, then summary
generation.  Returns the finally persisted summary collection and the list
of statistics fetches issued. -/
def runReconcile (env : StatsEnv) (summaries0 : List SummaryEntry)
    (forceUpdate : Bool) (now : Nat) : List SummaryEntry × List Nat :=
  let er := enrich env summaries0 forceUpdate env.projects
  (generate summaries0 now er.1, er.2)

/-! Helper lemmas characterizing the per-job loop. -/

theorem processJobs_calls_dry (env : ApiEnv) (pid : Nat) (now : Int) (jobs : List Job) :
    (processJobs env pid true now jobs).calls = [] := by
  induction jobs with
  | nil => rfl
  | cons j rest ih =>
    unfold processJobs
    by_cases h : isExpired j now <;> simp [h, ih]

theorem processJobs_reports_live (env : ApiEnv) (pid : Nat) (now : Int) (jobs : List Job) :
    (processJobs env pid false now jobs).reports = [] := by
  induction jobs with
  | nil => rfl
  | cons j rest ih =>
    unfold processJobs
    by_cases h : isExpired j now
    · by_cases hd : env.deleteOk pid j.id <;> simp [h, hd, ih]
    · simp [h, ih]

theorem processJobs_calls_live (env : ApiEnv) (pid : Nat) (now : Int) (jobs : List Job) :
    (processJobs env pid false now jobs).calls
      = (jobs.filter (fun j => isExpired j now)).map (fun j => DeleteCall.mk pid j.id) := by
  induction jobs with
  | nil => rfl
  | cons j rest ih =>
    unfold processJobs
    by_cases h : isExpired j now
    · by_cases hd : env.deleteOk pid j.id <;>
        simp [h, hd, ih, List.filter_cons]
    · simp [h, ih, List.filter_cons]

theorem processJobs_reports_dry (env : ApiEnv) (pid : Nat) (now : Int) (jobs : List Job) :
    (processJobs env pid true now jobs).reports
      = (jobs.filter (fun j => isExpired j now)).map (fun j => DeleteCall.mk pid j.id) := by
  induction jobs with
  | nil => rfl
  | cons j rest ih =>
    unfold processJobs
    by_cases h : isExpired j now <;> simp [h, ih, List.filter_cons]

theorem processJobs_errors_live (env : ApiEnv) (pid : Nat) (now : Int) (jobs : List Job) :
    (processJobs env pid false now jobs).errors
      = (processJobs env pid false now jobs).calls.filter
          (fun c => !env.deleteOk c.projectId c.jobId) := by
  induction jobs with
  | nil => rfl
  | cons j rest ih =>
    unfold processJobs
    by_cases h : isExpired j now
    · by_cases hd : env.deleteOk pid j.id <;> simp [h, hd, ih, List.filter_cons]
    · simp [h, ih]

theorem mem_expired_map (jobs : List Job) (pid : Nat) (now : Int) (j : Job)
    (hj : j ∈ jobs) (hnodup : (jobs.map Job.id).Nodup) (hexp : isExpired j now = false) :
    DeleteCall.mk pid j.id ∉
      (jobs.filter (fun x => isExpired x now)).map (fun x => DeleteCall.mk pid x.id) := by
  intro hmem
  rcases List.mem_map.mp hmem with ⟨j2, hj2, heq⟩
  rcases List.mem_filter.mp hj2 with ⟨hj2m, hj2e⟩
  have hid : j2.id = j.id := by
    have := congrArg DeleteCall.jobId heq
    simpa using this
  have hjj : j2 = j := List.inj_on_of_nodup_map hnodup hj2m hj hid
  rw [hjj, hexp] at hj2e
  exact Bool.false_ne_true hj2e

/-- C4: for a job with `artifacts_expire_at = t`, the expiration decision is
`t < now - 7 days`, a strict inequality; at the exact boundary
`t = now - 7 days` the job is not expired. -/
theorem expire_at_strict (j : Job) (now t : Int)
    (h : j.artifacts_expire_at = some t) :
    (isExpired j now = true ↔ t < now - sevenDays) ∧
    (t = now - sevenDays → isExpired j now = false) := by
  constructor
  · simp [isExpired, expireAtDate, h]
  · intro ht
    simp [isExpired, expireAtDate, h, ht]

/-- Witness for `expire_at_strict` at a concrete job with an explicit expiry
exactly at the boundary. -/
theorem expire_at_strict_witness :
    (isExpired ⟨7, some (100 - sevenDays), none⟩ 100 = true ↔
      100 - sevenDays < 100 - sevenDays) ∧
    (100 - sevenDays = 100 - sevenDays →
      isExpired ⟨7, some (100 - sevenDays), none⟩ 100 = false) :=
  expire_at_strict ⟨7, some (100 - sevenDays), none⟩ 100 (100 - sevenDays) rfl

/-- C5: for a job with no `artifacts_expire_at` but with `created_at = c`, the
decision is `c + 7 days < now - 7 days`, which is equivalent to `c` being
more than 14 days before `now`. -/
theorem fallback_expiry (j : Job) (now c : Int)
    (h1 : j.artifacts_expire_at = none) (h2 : j.created_at = some c) :
    (isExpired j now = true ↔ c + sevenDays < now - sevenDays) ∧
    (c + sevenDays < now - sevenDays ↔ c < now - 14 * msPerDay) := by
  constructor
  · simp [isExpired, expireAtDate, h1, h2]
  · simp only [sevenDays]
    omega

/-- Witness for `fallback_expiry`: a job created 15 days before the reference
time is expired under the fallback. -/
theorem fallback_expiry_witness :
    (isExpired ⟨3, none, some (-15 * msPerDay)⟩ 0 = true ↔
      -15 * msPerDay + sevenDays < 0 - sevenDays) ∧
    (-15 * msPerDay + sevenDays < 0 - sevenDays ↔ -15 * msPerDay < 0 - 14 * msPerDay) :=
  fallback_expiry ⟨3, none, some (-15 * msPerDay)⟩ 0 (-15 * msPerDay) rfl rfl

/-- C6: dry-run mode issues zero delete calls no matter what the remote
returns, and live mode issues exactly one delete call per job the expiration
policy marks expired, in job-list order. -/
theorem dry_run_invariant (env : ApiEnv) (pid : Nat) (now : Int) (jobs : List Job)
    (h : env.jobsOf pid = some jobs) :
    (∀ e : ApiEnv, (deleteProjectArtifacts e pid true now).calls = []) ∧
    (deleteProjectArtifacts env pid false now).calls
      = (jobs.filter (fun j => isExpired j now)).map (fun j => DeleteCall.mk pid j.id) := by
  constructor
  · intro e
    unfold deleteProjectArtifacts
    cases he : e.jobsOf pid with
    | none => rfl
    | some l => simp [processJobs_calls_dry]
  · unfold deleteProjectArtifacts
    rw [h]
    simp [processJobs_calls_live]

/-- Witness for `dry_run_invariant` on a one-project environment with one
long-expired job. -/
theorem dry_run_invariant_witness :
    (∀ e : ApiEnv,
      (deleteProjectArtifacts e 1 true (30 * msPerDay)).calls = []) ∧
    (deleteProjectArtifacts
        ⟨fun p => if p = 1 then some [⟨10, some 0, none⟩] else none, fun _ _ => true⟩
        1 false (30 * msPerDay)).calls
      = ([⟨10, some 0, none⟩].filter (fun j => isExpired j (30 * msPerDay))).map
          (fun j => DeleteCall.mk 1 j.id) :=
  dry_run_invariant
    ⟨fun p => if p = 1 then some [⟨10, some 0, none⟩] else none, fun _ _ => true⟩
    1 (30 * msPerDay) [⟨10, some 0, none⟩] rfl

/-- C7: the per-project executor returns `false` exactly when the job-listing
fetch fails; when the listing succeeds, the result is `true`, the delete
calls issued in live mode cover every expired job whether or not earlier
deletes in the batch fail (the call list is determined by the job list
alone), and each failing delete is recorded as an error. -/
theorem listing_failure_only (env : ApiEnv) (pid : Nat) (now : Int) (jobs : List Job)
    (h : env.jobsOf pid = some jobs) :
    (∀ e : ApiEnv, ∀ d : Bool,
      ((deleteProjectArtifacts e pid d now).success = false ↔ e.jobsOf pid = none)) ∧
    (deleteProjectArtifacts env pid false now).success = true ∧
    (deleteProjectArtifacts env pid false now).calls
      = (jobs.filter (fun j => isExpired j now)).map (fun j => DeleteCall.mk pid j.id) ∧
    (deleteProjectArtifacts env pid false now).errors
      = (deleteProjectArtifacts env pid false now).calls.filter
          (fun c => !env.deleteOk c.projectId c.jobId) := by
  refine ⟨?_, ?_, ?_, ?_⟩
  · intro e d
    unfold deleteProjectArtifacts
    cases he : e.jobsOf pid with
    | none => simp
    | some l => simp
  · unfold deleteProjectArtifacts
    rw [h]
  · unfold deleteProjectArtifacts
    rw [h]
    simp [processJobs_calls_live]
  · unfold deleteProjectArtifacts
    rw [h]
    simp [processJobs_errors_live]

/-- Witness for `listing_failure_only`: one project whose single expired
job's delete call fails; the run still succeeds and records the error. -/
theorem listing_failure_only_witness :
    (∀ e : ApiEnv, ∀ d : Bool,
      ((deleteProjectArtifacts e 1 d (30 * msPerDay)).success = false ↔
        e.jobsOf 1 = none)) ∧
    (deleteProjectArtifacts
        ⟨fun p => if p = 1 then some [⟨10, some 0, none⟩] else none, fun _ _ => false⟩
        1 false (30 * msPerDay)).success = true ∧
    (deleteProjectArtifacts
        ⟨fun p => if p = 1 then some [⟨10, some 0, none⟩] else none, fun _ _ => false⟩
        1 false (30 * msPerDay)).calls
      = ([⟨10, some 0, none⟩].filter (fun j => isExpired j (30 * msPerDay))).map
          (fun j => DeleteCall.mk 1 j.id) ∧
    (deleteProjectArtifacts
        ⟨fun p => if p = 1 then some [⟨10, some 0, none⟩] else none, fun _ _ => false⟩
        1 false (30 * msPerDay)).errors
      = (deleteProjectArtifacts
            ⟨fun p => if p = 1 then some [⟨10, some 0, none⟩] else none, fun _ _ => false⟩
            1 false (30 * msPerDay)).calls.filter
          (fun c =>
            !(⟨fun p => if p = 1 then some [⟨10, some 0, none⟩] else none,
               fun _ _ => false⟩ : ApiEnv).deleteOk c.projectId c.jobId) :=
  listing_failure_only
    ⟨fun p => if p = 1 then some [⟨10, some 0, none⟩] else none, fun _ _ => false⟩
    1 (30 * msPerDay) [⟨10, some 0, none⟩] rfl

/-- C8: a job with neither `artifacts_expire_at` nor `created_at` is never
selected: no delete call is issued for it in live mode and no intended
deletion is reported for it in dry-run mode. -/
theorem no_date_never_selected (env : ApiEnv) (pid : Nat) (now : Int) (dryRun : Bool)
    (jobs : List Job) (j : Job)
    (h : env.jobsOf pid = some jobs) (hj : j ∈ jobs)
    (h1 : j.artifacts_expire_at = none) (h2 : j.created_at = none)
    (hnodup : (jobs.map Job.id).Nodup) :
    DeleteCall.mk pid j.id ∉ (deleteProjectArtifacts env pid dryRun now).calls ∧
    DeleteCall.mk pid j.id ∉ (deleteProjectArtifacts env pid dryRun now).reports := by
  have hexp : isExpired j now = false := by
    simp [isExpired, expireAtDate, h1, h2]
  have hnot := mem_expired_map jobs pid now j hj hnodup hexp
  unfold deleteProjectArtifacts
  rw [h]
  cases dryRun with
  | false =>
    constructor
    · simpa [processJobs_calls_live] using hnot
    · simp [processJobs_reports_live]
  | true =>
    constructor
    · simp [processJobs_calls_dry]
    · simpa [processJobs_reports_dry] using hnot

/-- Witness for `no_date_never_selected`: a job with no dates alongside an
expired one; only the expired job is acted on. -/
theorem no_date_never_selected_witness :
    DeleteCall.mk 1 20 ∉
      (deleteProjectArtifacts
        ⟨fun p => if p = 1 then some [⟨10, some 0, none⟩, ⟨20, none, none⟩] else none,
         fun _ _ => true⟩ 1 false (30 * msPerDay)).calls ∧
    DeleteCall.mk 1 20 ∉
      (deleteProjectArtifacts
        ⟨fun p => if p = 1 then some [⟨10, some 0, none⟩, ⟨20, none, none⟩] else none,
         fun _ _ => true⟩ 1 false (30 * msPerDay)).reports :=
  no_date_never_selected
    ⟨fun p => if p = 1 then some [⟨10, some 0, none⟩, ⟨20, none, none⟩] else none,
     fun _ _ => true⟩ 1 (30 * msPerDay) false
    [⟨10, some 0, none⟩, ⟨20, none, none⟩] ⟨20, none, none⟩
    rfl (by simp) rfl rfl (by decide)

/-! Helper lemmas on the enrichment loop and the upsert. -/

theorem enrichStep_fetches (env : StatsEnv) (s : List SummaryEntry) (f : Bool)
    (p : Project) :
    (enrichStep env s f p).2 = [] ∨ (enrichStep env s f p).2 = [p.id] := by
  unfold enrichStep fetchRecord
  cases recFind s p.id with
  | none => cases env.fetchStats p.id <;> simp
  | some e =>
    by_cases hc : (!f && !(strTruthy e.error) && e.statistics.isSome) = true
    · simp [hc]
    · cases env.fetchStats p.id <;> simp [hc]

theorem mem_enrich_fetches (env : StatsEnv) (s : List SummaryEntry) (f : Bool)
    (ps : List Project) (pid : Nat) (h : pid ∈ (enrich env s f ps).2) :
    ∃ q ∈ ps, pid ∈ (enrichStep env s f q).2 := by
  induction ps with
  | nil => simp [enrich] at h
  | cons q rest ih =>
    unfold enrich at h
    rcases List.mem_append.mp h with h1 | h2
    · exact ⟨q, List.mem_cons_self q rest, h1⟩
    · rcases ih h2 with ⟨q2, hq2, hq2m⟩
      exact ⟨q2, List.mem_cons_of_mem q hq2, hq2m⟩

theorem mem_enrich_records (env : StatsEnv) (s : List SummaryEntry) (f : Bool)
    (ps : List Project) (p : Project) (h : p ∈ ps) :
    (enrichStep env s f p).1 ∈ (enrich env s f ps).1 := by
  induction ps with
  | nil => cases h
  | cons q rest ih =>
    unfold enrich
    rcases List.mem_cons.mp h with rfl | hmem
    · exact List.mem_cons_self _ _
    · exact List.mem_cons_of_mem _ (ih hmem)

theorem set_self_of_getElem? {α : Type _} (l : List α) (i : Nat) (x : α)
    (h : l[i]? = some x) : l.set i x = l := by
  apply List.ext_getElem?
  intro n
  rw [List.getElem?_set]
  by_cases hin : i = n
  · subst hin
    rcases List.getElem?_eq_some_iff.mp h with ⟨hlt, hx⟩
    simp [hlt, hx.symm, List.getElem?_eq_some_iff]
  · simp [hin]

theorem genStep_map_projectId (s : List SummaryEntry) (r : PRecord) (now : Nat) :
    (genStep s r now).map SummaryEntry.projectId = s.map SummaryEntry.projectId ∨
    ((genStep s r now).map SummaryEntry.projectId
        = s.map SummaryEntry.projectId ++ [r.id] ∧
      r.id ∉ s.map SummaryEntry.projectId) := by
  unfold genStep
  cases hidx : s.findIdx? (fun x => decide (x.projectId = r.id)) with
  | some i =>
    left
    rcases List.findIdx?_eq_some_iff_getElem.mp hidx with ⟨hlt, hp, _⟩
    have hkey : s[i].projectId = r.id := of_decide_eq_true hp
    have hmk : (mkSummaryEntry r now).projectId = r.id := rfl
    rw [List.map_set]
    apply set_self_of_getElem?
    rw [List.getElem?_map]
    simp [List.getElem?_eq_some_iff, hlt, hkey, hmk]
  | none =>
    right
    rw [List.findIdx?_eq_none_iff] at hidx
    constructor
    · simp [mkSummaryEntry]
    · intro hmem
      rcases List.mem_map.mp hmem with ⟨x, hx, hxe⟩
      have := hidx x hx
      simp [hxe] at this

theorem genStep_nodup (s : List SummaryEntry) (r : PRecord) (now : Nat)
    (h : (s.map SummaryEntry.projectId).Nodup) :
    ((genStep s r now).map SummaryEntry.projectId).Nodup := by
  rcases genStep_map_projectId s r now with h1 | ⟨h1, h2⟩
  · rw [h1]; exact h
  · rw [h1, List.nodup_append]
    refine ⟨h, List.nodup_singleton _, ?_⟩
    intro x hx hx2
    rw [List.mem_singleton.mp hx2] at hx
    exact h2 hx

theorem generate_nodup (now : Nat) (rs : List PRecord) (s : List SummaryEntry)
    (h : (s.map SummaryEntry.projectId).Nodup) :
    ((generate s now rs).map SummaryEntry.projectId).Nodup := by
  induction rs generalizing s with
  | nil => exact h
  | cons r rest ih =>
    unfold generate
    exact ih (genStep s r now) (genStep_nodup s r now h)

/-- C2: when an entry for the project identifier exists with no recorded
error and non-null statistics, and `forceUpdate` is false, the enrichment
loop pushes the existing entry itself as the project's record and issues no
statistics fetch for that project identifier anywhere in the run. -/
theorem skip_reuses_entry (env : StatsEnv) (s : List SummaryEntry)
    (p : Project) (e : SummaryEntry)
    (hfind : recFind s p.id = some e) (herr : e.error = none)
    (hstats : e.statistics.isSome = true) :
    enrichStep env s false p = (SummaryEntry.asRecord e, []) ∧
    p.id ∉ (enrich env s false env.projects).2 ∧
    (p ∈ env.projects →
      SummaryEntry.asRecord e ∈ (enrich env s false env.projects).1) := by
  have hstep : ∀ q : Project, q.id = p.id →
      enrichStep env s false q = (SummaryEntry.asRecord e, []) := by
    intro q hq
    unfold enrichStep
    rw [show recFind s q.id = some e from hq ▸ hfind]
    simp [herr, strTruthy, hstats]
  refine ⟨hstep p rfl, ?_, ?_⟩
  · intro hmem
    rcases mem_enrich_fetches env s false env.projects p.id hmem with ⟨q, _, hqm⟩
    rcases enrichStep_fetches env s false q with h0 | h0
    · rw [h0] at hqm
      exact List.not_mem_nil _ hqm
    · rw [h0] at hqm
      have hid : q.id = p.id := (List.mem_singleton.mp hqm).symm
      have := hstep q hid
      rw [this] at h0
      simp at h0
  · intro hp
    have := mem_enrich_records env s false env.projects p hp
    rw [hstep p rfl] at this
    exact this

/-- Witness for `skip_reuses_entry`: a one-project environment whose summary
already holds a clean entry for the project; no fetch is issued and the
entry is reused. -/
theorem skip_reuses_entry_witness :
    enrichStep ⟨[⟨1, "demo"⟩], fun _ => none⟩
        [⟨some 1, some "demo", 100, toFixed2MB 100, some ⟨some 100⟩, none, 0⟩] false ⟨1, "demo"⟩
      = (SummaryEntry.asRecord ⟨some 1, some "demo", 100, toFixed2MB 100, some ⟨some 100⟩, none, 0⟩, []) ∧
    (1 : Nat) ∉ (enrich ⟨[⟨1, "demo"⟩], fun _ => none⟩
        [⟨some 1, some "demo", 100, toFixed2MB 100, some ⟨some 100⟩, none, 0⟩] false
        (⟨[⟨1, "demo"⟩], fun _ => none⟩ : StatsEnv).projects).2 ∧
    (⟨1, "demo"⟩ ∈ (⟨[⟨1, "demo"⟩], fun _ => none⟩ : StatsEnv).projects →
      SummaryEntry.asRecord ⟨some 1, some "demo", 100, toFixed2MB 100, some ⟨some 100⟩, none, 0⟩
        ∈ (enrich ⟨[⟨1, "demo"⟩], fun _ => none⟩
            [⟨some 1, some "demo", 100, toFixed2MB 100, some ⟨some 100⟩, none, 0⟩] false
            (⟨[⟨1, "demo"⟩], fun _ => none⟩ : StatsEnv).projects).1) :=
  skip_reuses_entry ⟨[⟨1, "demo"⟩], fun _ => none⟩
    [⟨some 1, some "demo", 100, toFixed2MB 100, some ⟨some 100⟩, none, 0⟩]
    ⟨1, "demo"⟩ ⟨some 1, some "demo", 100, toFixed2MB 100, some ⟨some 100⟩, none, 0⟩
    (by decide) rfl rfl

/-- C3: a record that came from the skip path is a prior `SummaryEntry`,
which has no `id` or `name` field, so the entry regenerated from it carries
`projectId = none` and `projectName = none`, and the upsert keys it under
that undefined identifier: against a collection whose entries all have a
defined `projectId`, it is appended instead of replacing the project's real
entry. -/
theorem skipped_upsert_undefined_key (e : SummaryEntry) (now : Nat)
    (s : List SummaryEntry) (hall : ∀ x ∈ s, x.projectId.isSome = true) :
    (mkSummaryEntry (SummaryEntry.asRecord e) now).projectId = none ∧
    (mkSummaryEntry (SummaryEntry.asRecord e) now).projectName = none ∧
    genStep s (SummaryEntry.asRecord e) now
      = s ++ [mkSummaryEntry (SummaryEntry.asRecord e) now] := by
  refine ⟨rfl, rfl, ?_⟩
  unfold genStep
  have hidx : s.findIdx?
      (fun x => decide (x.projectId = (SummaryEntry.asRecord e).id)) = none := by
    rw [List.findIdx?_eq_none_iff]
    intro x hx
    have hs := hall x hx
    simp only [SummaryEntry.asRecord, decide_eq_false_iff_not]
    intro hnone
    rw [hnone] at hs
    simp at hs
  rw [hidx]

/-- Witness for `skipped_upsert_undefined_key`: upserting the record of a
skipped project appends a `projectId`-less entry after the project's real
entry. -/
theorem skipped_upsert_undefined_key_witness :
    (mkSummaryEntry
      (SummaryEntry.asRecord ⟨some 1, some "demo", 100, toFixed2MB 100, some ⟨some 100⟩, none, 0⟩) 3).projectId
        = none ∧
    (mkSummaryEntry
      (SummaryEntry.asRecord ⟨some 1, some "demo", 100, toFixed2MB 100, some ⟨some 100⟩, none, 0⟩) 3).projectName
        = none ∧
    genStep [⟨some 1, some "demo", 100, toFixed2MB 100, some ⟨some 100⟩, none, 0⟩]
        (SummaryEntry.asRecord ⟨some 1, some "demo", 100, toFixed2MB 100, some ⟨some 100⟩, none, 0⟩) 3
      = [⟨some 1, some "demo", 100, toFixed2MB 100, some ⟨some 100⟩, none, 0⟩]
        ++ [mkSummaryEntry
            (SummaryEntry.asRecord ⟨some 1, some "demo", 100, toFixed2MB 100, some ⟨some 100⟩, none, 0⟩) 3] :=
  skipped_upsert_undefined_key
    ⟨some 1, some "demo", 100, toFixed2MB 100, some ⟨some 100⟩, none, 0⟩ 3
    [⟨some 1, some "demo", 100, toFixed2MB 100, some ⟨some 100⟩, none, 0⟩]
    (by decide)

/-- C9: the upsert of the summary-generation loop replaces in place or
appends, so a reconciliation run never introduces two entries with the same
`projectId`: if the loaded collection has pairwise distinct `projectId`
values, so does the persisted collection after the run (hence after any
number of runs, starting from the empty collection). -/
theorem reconcile_unique_ids (env : StatsEnv) (s : List SummaryEntry)
    (f : Bool) (now : Nat) (h : (s.map SummaryEntry.projectId).Nodup) :
    (((runReconcile env s f now).1).map SummaryEntry.projectId).Nodup := by
  unfold runReconcile
  exact generate_nodup now (enrich env s f env.projects).1 s h

/-- Witness for `reconcile_unique_ids` on a two-project environment starting
from the empty collection. -/
theorem reconcile_unique_ids_witness :
    (((runReconcile
        ⟨[⟨1, "a"⟩, ⟨2, "b"⟩], fun i => if i = 1 then some ⟨some 5⟩ else none⟩
        [] false 0).1).map SummaryEntry.projectId).Nodup :=
  reconcile_unique_ids
    ⟨[⟨1, "a"⟩, ⟨2, "b"⟩], fun i => if i = 1 then some ⟨some 5⟩ else none⟩
    [] false 0 (by simp)

/-- C10 counterexample: the claim fails when `job_artifacts_size` is present
with value `0` — the condition at line 251 tests JavaScript truthiness, and
the number `0` is falsy, so the availability error is attached even though
the size is present. -/
theorem size_present_zero_cex :
    ¬ (∀ (r : PRecord) (now : Nat) (st : Statistics) (n : Nat),
        r.statistics = some st → st.job_artifacts_size = some n →
        (mkSummaryEntry r now).buildArtifactsSizeBytes = n ∧
        (mkSummaryEntry r now).error ≠ some noSizeError) := by
  intro h
  have := h ⟨some 1, some "p", some ⟨some 0⟩, none⟩ 0 ⟨some 0⟩ 0 rfl rfl
  exact this.2 (by decide)

/-- C10 as amended: when `job_artifacts_size` is present and non-zero
(truthy), the entry's byte count equals it and the error is just the
truthiness-filtered carried-over record error; when the statistics object or
the size is absent, or the size is zero (falsy), the byte count is 0 and the
error is overridden to the availability message. -/
theorem summary_size_and_error (r : PRecord) (now : Nat) :
    (∀ (st : Statistics) (n : Nat),
      r.statistics = some st → st.job_artifacts_size = some n → n ≠ 0 →
      (mkSummaryEntry r now).buildArtifactsSizeBytes = n ∧
      (mkSummaryEntry r now).error
        = (if strTruthy r.error then r.error else none)) ∧
    ((∀ st : Statistics, r.statistics = some st → st.job_artifacts_size.getD 0 = 0) →
      (mkSummaryEntry r now).buildArtifactsSizeBytes = 0 ∧
      (mkSummaryEntry r now).error = some noSizeError) := by
  constructor
  · intro st n hst hn hnz
    have havail : sizeAvailable r = true := by
      simp [sizeAvailable, hst, hn, hnz]
    constructor
    · simp [mkSummaryEntry, havail, hst, hn]
    · simp [mkSummaryEntry, havail]
  · intro habs
    have havail : sizeAvailable r = false := by
      unfold sizeAvailable
      cases hst : r.statistics with
      | none => rfl
      | some st =>
        have h0 := habs st hst
        cases hsz : st.job_artifacts_size with
        | none => simp [hsz]
        | some n =>
          rw [hsz] at h0
          simp at h0
          simp [hsz, h0]
    constructor
    · simp [mkSummaryEntry, havail]
    · simp [mkSummaryEntry, havail]

/-- Witness for `summary_size_and_error`: a record with size 5 keeps the
value and no error; a record whose statistics lack the size gets 0 and the
availability error. -/
theorem summary_size_and_error_witness :
    ((mkSummaryEntry ⟨some 1, some "p", some ⟨some 5⟩, none⟩ 0).buildArtifactsSizeBytes = 5 ∧
      (mkSummaryEntry ⟨some 1, some "p", some ⟨some 5⟩, none⟩ 0).error
        = (if strTruthy (none : Option String) then (none : Option String) else none)) ∧
    ((mkSummaryEntry ⟨some 2, some "q", some ⟨none⟩, none⟩ 0).buildArtifactsSizeBytes = 0 ∧
      (mkSummaryEntry ⟨some 2, some "q", some ⟨none⟩, none⟩ 0).error = some noSizeError) :=
  ⟨(summary_size_and_error ⟨some 1, some "p", some ⟨some 5⟩, none⟩ 0).1
      ⟨some 5⟩ 5 rfl rfl (by decide),
   (summary_size_and_error ⟨some 2, some "q", some ⟨none⟩, none⟩ 0).2
      (by intro st hst; injection hst with h2; rw [← h2]; rfl)⟩

/-- The one-project environment of the idempotence scenario: project 1 named
"demo", whose statistics fetch succeeds with `job_artifacts_size = 100`. -/
def demoEnv : StatsEnv :=
  { projects := [⟨1, "demo"⟩]
    fetchStats := fun i => if i = 1 then some ⟨some 100⟩ else none }

/-- C1 evaluated on the failing input (code bug): starting from the empty
collection, the first full run with `forceUpdate = false` produces one entry
for project 1; the second run over unchanged remote data skips the project
(no statistics fetch is issued) but still appends a second entry whose
`projectId` is undefined, because the skip path pushed the prior
`SummaryEntry` (which has no `id`/`name` fields) into the records list.  The
persisted collection after the second run is therefore not identical to the
collection after the first run even with an identical clock. -/
theorem second_run_not_identical :
    (runReconcile demoEnv (runReconcile demoEnv [] false 0).1 false 0).2 = [] ∧
    ((runReconcile demoEnv [] false 0).1.map SummaryEntry.projectId = [some 1]) ∧
    ((runReconcile demoEnv (runReconcile demoEnv [] false 0).1 false 0).1.map
        SummaryEntry.projectId = [some 1, none]) ∧
    (runReconcile demoEnv (runReconcile demoEnv [] false 0).1 false 0).1
      ≠ (runReconcile demoEnv [] false 0).1 := by
  decide

end Housekeep
